import Mathlib

/-!
Shallow embedding of the USB-keyboard-to-serial bridge.

Two implementation variants exist in the repository:
* `keyboard_main.c` (modelled by `StA`, `tickA`, `reportA`): the HID report
  callback remembers the last key in a static variable and resets the global
  `tick_counter` itself whenever the key changes; the scheduler loop only
  touches `tick_counter` while a key is held.
* the unnamed variant `part_000` (modelled by `StB`, `tickB`, `reportB`): the
  callback only writes the two key-state globals; the scheduler keeps a local
  `prev_key` and resets `tick_counter` lazily at the top of each loop
  iteration, and clears it while no key is held.

Machine integers: all values involved (keycodes, modifier masks, table
entries, the tick counter bounded by 50) stay far below any overflow
boundary, so they are modelled as `Nat`.
-/

namespace UsbKbd

/-- KEYPRESS_INTERVAL_MS from the source. -/
def KEYPRESS_INTERVAL_MS : Nat := 500

/-- TIMER_INTERVAL_MS from the source. -/
def TIMER_INTERVAL_MS : Nat := 10

/-- TICK_COUNT_MAX = KEYPRESS_INTERVAL_MS / TIMER_INTERVAL_MS = 50. -/
def TICK_COUNT_MAX : Nat := KEYPRESS_INTERVAL_MS / TIMER_INTERVAL_MS

/-- Byte values of the C string `lut_shift`
"ABCDEFGHIJKLMNOPQRSTUVWXYZ!@#$%^&*()\n\x1B\b\t _+\x7b\x7d| :\"~<>?"
(53 entries, index 0 corresponds to keycode 0x04). -/
def lut_shift : List Nat :=
  [65, 66, 67, 68, 69, 70, 71, 72, 73, 74, 75, 76, 77, 78, 79, 80, 81, 82,
   83, 84, 85, 86, 87, 88, 89, 90,
   33, 64, 35, 36, 37, 94, 38, 42, 40, 41,
   10, 27, 8, 9, 32,
   95, 43, 123, 125, 124, 32, 58, 34, 126, 60, 62, 63]

/-- Byte values of the C string `lut_plain`
"abcdefghijklmnopqrstuvwxyz1234567890\n\x1B\b\t -=[]\\ ;'`,./"
(53 entries, index 0 corresponds to keycode 0x04). -/
def lut_plain : List Nat :=
  [97, 98, 99, 100, 101, 102, 103, 104, 105, 106, 107, 108, 109, 110, 111,
   112, 113, 114, 115, 116, 117, 118, 119, 120, 121, 122,
   49, 50, 51, 52, 53, 54, 55, 56, 57, 48,
   10, 27, 8, 9, 32,
   45, 61, 91, 93, 92, 32, 59, 39, 96, 44, 46, 47]

/-- The translator `usb_keycode_to_ascii` (identical in both C variants):
returns 0 outside the keycode range [0x04, 0x38]; with a Ctrl bit set and a
letter key, returns `idx + 1`; otherwise indexes the shift-selected table. -/
def usb_keycode_to_ascii (key_code modifier : Nat) : Nat :=
  if key_code < 0x04 ∨ 0x38 < key_code then 0
  else
    if (modifier &&& 0x01 ≠ 0 ∨ modifier &&& 0x10 ≠ 0) ∧ key_code - 0x04 ≤ 25 then
      (key_code - 0x04) + 1
    else if modifier &&& 0x02 ≠ 0 ∨ modifier &&& 0x20 ≠ 0 then
      lut_shift.getD (key_code - 0x04) 0
    else
      lut_plain.getD (key_code - 0x04) 0

/-- What the scheduler loop body writes to the UART for a held key:
`some` of the translated byte when the translator yields a nonzero byte,
`none` otherwise (the C code skips `uart_write_bytes` when the char is 0). -/
def sendByte (k m : Nat) : Option Nat :=
  if usb_keycode_to_ascii k m ≠ 0 then some (usb_keycode_to_ascii k m) else none

/-- Global state of the `keyboard_main.c` variant: `tick` is `tick_counter`,
`key` is `current_key`, `mdf` is `current_mod`, `last` is the callback's
static `last_key`. -/
structure StA where
  tick : Nat
  key : Nat
  mdf : Nat
  last : Nat

/-- Global state of the `part_000` variant: `tick` is `tick_counter`,
`key` is `current_key`, `mdf` is `current_mod`, `prev` is the scheduler's
local `prev_key`. -/
structure StB where
  tick : Nat
  key : Nat
  mdf : Nat
  prev : Nat

/-- One iteration of `uart_repeat_send_task` in `keyboard_main.c`:
while a key is held, emit on `tick_counter == 0`, then increment and wrap;
while no key is held the loop body does nothing. -/
def tickA (s : StA) : StA × Option Nat :=
  if s.key ≠ 0 then
    ({ s with tick := if TICK_COUNT_MAX ≤ s.tick + 1 then 0 else s.tick + 1 },
      if s.tick = 0 then sendByte s.key s.mdf else none)
  else (s, none)

/-- The value of `tick_counter` in `part_000`'s loop body just after the
`local_key != prev_key` reset at the top of the iteration. -/
def effTick (s : StB) : Nat :=
  if s.key ≠ s.prev then 0 else s.tick

/-- One iteration of `uart_repeat_send_task` in `part_000`: reset the counter
if the key changed since the previous iteration, emit on counter 0 while a key
is held (then increment and wrap), clear the counter while no key is held, and
record the key as `prev_key`. -/
def tickB (s : StB) : StB × Option Nat :=
  if s.key ≠ 0 then
    ({ s with
        tick := if TICK_COUNT_MAX ≤ effTick s + 1 then 0 else effTick s + 1,
        prev := s.key },
      if effTick s = 0 then sendByte s.key s.mdf else none)
  else
    ({ s with tick := 0, prev := s.key }, none)

/-- `hid_host_keyboard_report_callback` in `keyboard_main.c`: drop reports
shorter than 3 bytes; otherwise write `current_mod = report[0]`,
`current_key = report[2]`, reset `tick_counter` when the key differs from the
static `last_key`, and update `last_key`. -/
def reportA (s : StA) (raw : List Nat) : StA :=
  if raw.length < 3 then s
  else
    { tick := if s.last ≠ raw.getD 2 0 then 0 else s.tick,
      key := raw.getD 2 0,
      mdf := raw.getD 0 0,
      last := raw.getD 2 0 }

/-- `hid_host_keyboard_report_callback` in `part_000`: drop reports shorter
than 3 bytes; otherwise write `current_mod = report[0]` and
`current_key = report[2]` (also when `report[2]` is 0). -/
def reportB (s : StB) (raw : List Nat) : StB :=
  if raw.length < 3 then s
  else { s with key := raw.getD 2 0, mdf := raw.getD 0 0 }

/-- An event of a run: either a HID report delivered (applied atomically
between scheduler iterations) or one scheduler iteration. -/
inductive Ev where
  | report (raw : List Nat)
  | tick

/-- Initial state of the `keyboard_main.c` variant (all globals zero). -/
def initA : StA := ⟨0, 0, 0, 0⟩

/-- Initial state of the `part_000` variant (globals and `prev_key` zero). -/
def initB : StB := ⟨0, 0, 0, 0⟩

/-- Trace of UART outputs of the `keyboard_main.c` variant over a run:
one entry per scheduler tick. -/
def runA : StA → List Ev → List (Option Nat)
  | _, [] => []
  | s, Ev.report raw :: es => runA (reportA s raw) es
  | s, Ev.tick :: es => (tickA s).2 :: runA (tickA s).1 es

/-- Trace of UART outputs of the `part_000` variant over a run:
one entry per scheduler tick. -/
def runB : StB → List Ev → List (Option Nat)
  | _, [] => []
  | s, Ev.report raw :: es => runB (reportB s raw) es
  | s, Ev.tick :: es => (tickB s).2 :: runB (tickB s).1 es

/-- Checks that the held key changes at most once between consecutive
scheduler ticks of a run. `key` is the currently held key, `changed` whether a
change already happened since the last tick. -/
def okFrom : Nat → Bool → List Ev → Bool
  | _, _, [] => true
  | key, _, Ev.tick :: es => okFrom key false es
  | key, changed, Ev.report raw :: es =>
    if raw.length < 3 then okFrom key changed es
    else if raw.getD 2 0 = key then okFrom key changed es
    else if changed then false
    else okFrom (raw.getD 2 0) true es

/-- A run is admissible for the equivalence claim when, starting from the
initial state, the held key changes at most once between consecutive ticks. -/
def okRun (es : List Ev) : Bool := okFrom 0 false es

/-- Simulation relation between the two variants: same key state, the
callback's `last_key` coincides with the current key, the counter is 0 while
no key is held, variant B's counter after its lazy reset equals variant A's
counter, and (unless a key change is pending) B's `prev_key` is current. -/
def SimRel (key : Nat) (changed : Bool) (a : StA) (b : StB) : Prop :=
  a.key = b.key ∧ a.mdf = b.mdf ∧ a.last = a.key ∧ key = a.key ∧
    (a.key = 0 → a.tick = 0) ∧ effTick b = a.tick ∧
    (changed = false → b.prev = a.key)

/-- The C1 scenario: one report holding keycode 0x04 with no modifiers, then
2000 ms of 10 ms ticks (200 ticks). -/
def c1Events : List Ev :=
  Ev.report [0, 0, 0x04, 0, 0, 0, 0, 0] :: List.replicate 200 Ev.tick

/-- Expected outputs of the C1 scenario: the byte 97 (lowercase a) exactly at
tick indices 0, 50, 100, 150 (elapsed 0, 500, 1000, 1500 ms). -/
def c1Expected : List (Option Nat) :=
  (List.range 200).map (fun i => if i % 50 = 0 then some 97 else none)

/-- The C2 scenario: keycode 0x04 reported at t = 0, 20 ticks (200 ms), then
a report changing the held key to 0x05, then one more tick. -/
def c2Events : List Ev :=
  Ev.report [0, 0, 0x04, 0, 0, 0, 0, 0] ::
    (List.replicate 20 Ev.tick ++ (Ev.report [0, 0, 0x05, 0, 0, 0, 0, 0] :: [Ev.tick]))

/-- Expected outputs of the C2 scenario: 97 (a) at tick 0, nothing for ticks
1 to 19, then 98 (b) at tick 20 (t = 200 ms), immediately after the change. -/
def c2Expected : List (Option Nat) :=
  some 97 :: (List.replicate 19 none ++ [some 98])

/-- Fine-grained concurrency model for the key-state globals: the shared
cells `current_key` and `current_mod`. -/
structure Shared where
  key : Nat
  mdf : Nat
deriving DecidableEq

/-- The scheduler's local copies `local_key` and `local_mod` (`none` while
not yet read in the current iteration). -/
structure MObs where
  key : Option Nat
  mdf : Option Nat
deriving DecidableEq

/-- Individual memory accesses of the two contexts, at the granularity of the
C statements: the callback performs `current_mod = report[0]` (`wrMod`) then
`current_key = report[2]` (`wrKey`); the `part_000` scheduler performs
`local_key = current_key` (`rdKey`) then `local_mod = current_mod`
(`rdMod`). -/
inductive MAct where
  | wrMod (v : Nat)
  | wrKey (v : Nat)
  | rdKey
  | rdMod

/-- Effect of one memory access on the shared cells and the reader's
locals. -/
def stepM : Shared × MObs → MAct → Shared × MObs
  | (g, o), MAct.wrMod v => ({ g with mdf := v }, o)
  | (g, o), MAct.wrKey v => ({ g with key := v }, o)
  | (g, o), MAct.rdKey => (g, { o with key := some g.key })
  | (g, o), MAct.rdMod => (g, { o with mdf := some g.mdf })

/-- Execution of a sequence of memory accesses (one interleaving of the
report-ingestion context and the scheduler's reads). -/
def runM (st : Shared × MObs) (acts : List MAct) : Shared × MObs :=
  acts.foldl stepM st

/-- TICK_COUNT_MAX evaluates to 50. -/
theorem TICK_COUNT_MAX_eq : TICK_COUNT_MAX = 50 := rfl

/-- The increment-and-wrap step always lands strictly below the bound. -/
theorem wrap_lt (t : Nat) :
    (if TICK_COUNT_MAX ≤ t + 1 then 0 else t + 1) < TICK_COUNT_MAX := by
  rw [TICK_COUNT_MAX_eq]
  split <;> omega

/-- Below the bound, the increment-and-wrap step is addition modulo the
bound. -/
theorem wrap_eq (t : Nat) (h : t < TICK_COUNT_MAX) :
    (if TICK_COUNT_MAX ≤ t + 1 then 0 else t + 1) = (t + 1) % TICK_COUNT_MAX := by
  rw [TICK_COUNT_MAX_eq] at *
  split <;> omega

set_option maxRecDepth 40000 in
/-- Exhaustive check of the Ctrl rule over all letter keycodes and all 8-bit
modifier masks with a Ctrl bit set. -/
theorem ctrl_rule_aux : ∀ k < 30, ∀ m < 256, 4 ≤ k →
    (m &&& 0x01 ≠ 0 ∨ m &&& 0x10 ≠ 0) → usb_keycode_to_ascii k m = (k - 4) + 1 := by
  decide

set_option maxRecDepth 40000 in
/-- Exhaustive check of the letter rows of the two lookup tables. -/
theorem letters_aux : ∀ k < 30, 4 ≤ k →
    usb_keycode_to_ascii k 0 = 97 + (k - 4) ∧
    usb_keycode_to_ascii k 0x02 = 65 + (k - 4) ∧
    usb_keycode_to_ascii k 0x20 = 65 + (k - 4) := by
  decide

/-- Every entry of both lookup tables is a nonzero byte (in particular the
filler at index 46, keycode 0x32, is the space character 0x20). -/
theorem lut_entries_nonzero : ∀ i < 53, lut_plain.getD i 0 ≠ 0 ∧ lut_shift.getD i 0 ≠ 0 := by
  decide

/-- The translator returns 0 exactly on keycodes outside [0x04, 0x38],
whatever the modifier mask. -/
theorem usb_zero_iff (k m : Nat) :
    usb_keycode_to_ascii k m = 0 ↔ (k < 0x04 ∨ 0x38 < k) := by
  by_cases h : k < 0x04 ∨ 0x38 < k
  · simp [usb_keycode_to_ascii, h]
  · have hi : k - 4 < 53 := by omega
    have hz := lut_entries_nonzero (k - 4) hi
    simp only [usb_keycode_to_ascii, if_neg h]
    constructor
    · intro he
      exfalso
      split at he
      · omega
      · split at he
        · exact hz.2 he
        · exact hz.1 he
    · intro hc
      exact absurd hc h

/-- Characterisation of a produced byte: the loop sends `c` exactly when the
translator yields the nonzero byte `c`. -/
theorem sendByte_eq_some {k m c : Nat} :
    sendByte k m = some c ↔
      (usb_keycode_to_ascii k m = c ∧ usb_keycode_to_ascii k m ≠ 0) := by
  unfold sendByte
  split <;> simp_all

/-- The loop sends nothing exactly when the translator yields 0. -/
theorem sendByte_eq_none {k m : Nat} :
    sendByte k m = none ↔ usb_keycode_to_ascii k m = 0 := by
  unfold sendByte
  split <;> simp_all

/-- A `keyboard_main.c` tick with a held key and counter 0 attempts the
send. -/
theorem tickA_fire (s : StA) (hk : s.key ≠ 0) (ht : s.tick = 0) :
    (tickA s).2 = sendByte s.key s.mdf := by
  simp [tickA, hk, ht]

/-- A `part_000` tick with a held key whose post-reset counter is 0 attempts
the send. -/
theorem tickB_fire (s : StB) (hk : s.key ≠ 0) (ht : effTick s = 0) :
    (tickB s).2 = sendByte s.key s.mdf := by
  simp [tickB, hk, ht]

/-- C3: for every keycode in [0x04, 0x1D] and every 8-bit modifier mask with
a Ctrl bit (0x01 or 0x10) set, the translator returns (keycode - 0x04) + 1,
regardless of any simultaneously set Shift bit. -/
theorem ctrl_combination (k m : Nat) (hk1 : 4 ≤ k) (hk2 : k ≤ 0x1D) (hm : m < 256)
    (hc : m &&& 0x01 ≠ 0 ∨ m &&& 0x10 ≠ 0) :
    usb_keycode_to_ascii k m = (k - 4) + 1 :=
  ctrl_rule_aux k (by omega) m hm hk1 hc

/-- Witness for C3: Ctrl+Shift+A still translates to 0x01. -/
theorem ctrl_combination_witness : usb_keycode_to_ascii 0x04 0x03 = 1 :=
  ctrl_combination 0x04 0x03 (by decide) (by decide) (by decide) (Or.inl (by decide))

/-- C4: without Ctrl the translator agrees with the fixed lookup tables:
lowercase letters for keycodes [0x04, 0x1D] with no modifier, uppercase with
either Shift bit, the digit row, and Enter, Esc, Backspace. -/
theorem table_lookup :
    (∀ k : Nat, 4 ≤ k → k ≤ 0x1D →
      usb_keycode_to_ascii k 0 = 97 + (k - 4) ∧
      usb_keycode_to_ascii k 0x02 = 65 + (k - 4) ∧
      usb_keycode_to_ascii k 0x20 = 65 + (k - 4)) ∧
    usb_keycode_to_ascii 0x1E 0 = 49 ∧ usb_keycode_to_ascii 0x27 0 = 48 ∧
    usb_keycode_to_ascii 0x1E 0x02 = 33 ∧
    usb_keycode_to_ascii 0x28 0 = 10 ∧ usb_keycode_to_ascii 0x29 0 = 27 ∧
    usb_keycode_to_ascii 0x2A 0 = 8 :=
  ⟨fun k h1 h2 => letters_aux k (by omega) h1,
    by decide, by decide, by decide, by decide, by decide, by decide⟩

/-- Witness for C4: keycode 0x04 translates to lowercase a (97). -/
theorem table_lookup_witness : usb_keycode_to_ascii 0x04 0 = 97 := by
  simpa using (table_lookup.1 4 (by decide) (by decide)).1

/-- Counterexample to C5 as stated: the interior table slot at keycode 0x32
is not unmapped — the translator returns the space character for it. -/
theorem table_gap_claim_false : ¬ (usb_keycode_to_ascii 0x32 0 = 0) := by
  decide

/-- C5 (amended): the translator yields the unmapped result exactly when the
keycode is outside [0x04, 0x38], for every modifier mask; the interior slot
at keycode 0x32 is filled with the space character 0x20 in both tables; the
boundary keycodes 0x03 and 0x39 are unmapped. -/
theorem unmapped_exactly_outside_range :
    (∀ k m : Nat, usb_keycode_to_ascii k m = 0 ↔ (k < 0x04 ∨ 0x38 < k)) ∧
    usb_keycode_to_ascii 0x32 0 = 0x20 ∧ usb_keycode_to_ascii 0x32 0x02 = 0x20 ∧
    usb_keycode_to_ascii 0x03 0 = 0 ∧ usb_keycode_to_ascii 0x39 0 = 0 :=
  ⟨usb_zero_iff, by decide, by decide, by decide, by decide⟩

/-- C6: a report shorter than 3 bytes changes nothing (and in particular the
key state) and signals no error, in both variants; a report of at least 3
bytes writes modifiers from byte 0 and the held key from byte 2, including
the value 0 (all keys released). -/
theorem report_drop_and_writethrough :
    (∀ (s : StA) (raw : List Nat), raw.length < 3 → reportA s raw = s) ∧
    (∀ (s : StB) (raw : List Nat), raw.length < 3 → reportB s raw = s) ∧
    (∀ (s : StA) (raw : List Nat), 3 ≤ raw.length →
      (reportA s raw).mdf = raw.getD 0 0 ∧ (reportA s raw).key = raw.getD 2 0) ∧
    (∀ (s : StB) (raw : List Nat), 3 ≤ raw.length →
      (reportB s raw).mdf = raw.getD 0 0 ∧ (reportB s raw).key = raw.getD 2 0) := by
  refine ⟨?_, ?_, ?_, ?_⟩ <;> intro s raw h
  · simp [reportA, h]
  · simp [reportB, h]
  · simp [reportA, Nat.not_lt.mpr h]
  · simp [reportB, Nat.not_lt.mpr h]

/-- Witness for C6: a two-byte report is dropped; a release report with byte
2 equal to 0 is written through. -/
theorem report_drop_and_writethrough_witness :
    reportB ⟨7, 4, 2, 4⟩ [1, 2] = ⟨7, 4, 2, 4⟩ ∧
    (reportB ⟨7, 4, 2, 4⟩ [9, 0, 0]).mdf = 9 ∧
    (reportB ⟨7, 4, 2, 4⟩ [9, 0, 0]).key = 0 := by
  refine ⟨report_drop_and_writethrough.2.1 ⟨7, 4, 2, 4⟩ [1, 2] (by decide), ?_, ?_⟩
  · simpa using (report_drop_and_writethrough.2.2.2 ⟨7, 4, 2, 4⟩ [9, 0, 0] (by decide)).1
  · simpa using (report_drop_and_writethrough.2.2.2 ⟨7, 4, 2, 4⟩ [9, 0, 0] (by decide)).2

/-- Counterexample to C7 as stated: on a scheduler tick where the held key
(0, no key) is unchanged, the counter does not advance by 1 modulo
TICK_COUNT_MAX — `part_000` holds it at 0. -/
theorem idle_tick_claim_false :
    ¬ ((tickB ⟨0, 0, 0, 0⟩).1.tick = (0 + 1) % TICK_COUNT_MAX) := by
  decide

/-- C7 (amended): the counter stays in [0, TICK_COUNT_MAX) (= [0, 50)) after
every scheduler tick and report update, starting from 0; it advances by 1
modulo TICK_COUNT_MAX only on scheduler ticks where the held key is nonzero
and unchanged; on a tick with a changed nonzero key `part_000` resets it and
advances it to 1 in the same iteration; while no key is held `part_000`
clears it and `keyboard_main.c` leaves it untouched; on report updates
`keyboard_main.c` resets it to 0 when the key changes whereas `part_000`
never modifies it. -/
theorem phase_counter_behaviour :
    initA.tick = 0 ∧ initB.tick = 0 ∧
    (∀ s : StA, s.tick < TICK_COUNT_MAX → (tickA s).1.tick < TICK_COUNT_MAX) ∧
    (∀ (s : StA) (raw : List Nat), s.tick < TICK_COUNT_MAX →
      (reportA s raw).tick < TICK_COUNT_MAX) ∧
    (∀ s : StB, (tickB s).1.tick < TICK_COUNT_MAX) ∧
    (∀ (s : StB) (raw : List Nat), s.tick < TICK_COUNT_MAX →
      (reportB s raw).tick < TICK_COUNT_MAX) ∧
    (∀ s : StA, s.key ≠ 0 → s.tick < TICK_COUNT_MAX →
      (tickA s).1.tick = (s.tick + 1) % TICK_COUNT_MAX) ∧
    (∀ s : StB, s.key ≠ 0 → s.key = s.prev → s.tick < TICK_COUNT_MAX →
      (tickB s).1.tick = (s.tick + 1) % TICK_COUNT_MAX) ∧
    (∀ s : StB, s.key ≠ 0 → s.key ≠ s.prev → (tickB s).1.tick = 1) ∧
    (∀ s : StB, s.key = 0 → (tickB s).1.tick = 0) ∧
    (∀ s : StA, s.key = 0 → (tickA s).1.tick = s.tick) ∧
    (∀ (s : StA) (raw : List Nat), 3 ≤ raw.length → s.last ≠ raw.getD 2 0 →
      (reportA s raw).tick = 0) ∧
    (∀ (s : StB) (raw : List Nat), (reportB s raw).tick = s.tick) := by
  refine ⟨rfl, rfl, ?_, ?_, ?_, ?_, ?_, ?_, ?_, ?_, ?_, ?_, ?_⟩
  · intro s h
    simp only [tickA]
    split
    · exact wrap_lt s.tick
    · exact h
  · intro s raw h
    simp only [reportA]
    split
    · exact h
    · show (if s.last ≠ raw.getD 2 0 then 0 else s.tick) < TICK_COUNT_MAX
      split
      · decide
      · exact h
  · intro s
    simp only [tickB]
    split
    · exact wrap_lt (effTick s)
    · show (0 : Nat) < TICK_COUNT_MAX
      decide
  · intro s raw h
    simp only [reportB]
    split <;> exact h
  · intro s hk h
    simp only [tickA, if_pos hk]
    exact wrap_eq s.tick h
  · intro s hk hp h
    have he : effTick s = s.tick := by simp [effTick, hp]
    simp only [tickB, if_pos hk]
    show (if TICK_COUNT_MAX ≤ effTick s + 1 then 0 else effTick s + 1) =
      (s.tick + 1) % TICK_COUNT_MAX
    rw [he]
    exact wrap_eq s.tick h
  · intro s hk hp
    have he : effTick s = 0 := by simp [effTick, hp]
    simp only [tickB, if_pos hk]
    show (if TICK_COUNT_MAX ≤ effTick s + 1 then 0 else effTick s + 1) = 1
    rw [he]
    decide
  · intro s hk
    simp only [tickB]
    rw [if_neg (by simp [hk])]
  · intro s hk
    simp only [tickA]
    rw [if_neg (by simp [hk])]
  · intro s raw hlen hne
    simp only [reportA, if_neg (Nat.not_lt.mpr hlen)]
    exact if_pos hne
  · intro s raw
    simp only [reportB]
    split <;> rfl

/-- Witness for C7 (amended): concrete instances of the bound, the advance
rule, the in-tick reset of `part_000`, and the callback reset of
`keyboard_main.c`. -/
theorem phase_counter_behaviour_witness :
    (tickA ⟨49, 4, 0, 4⟩).1.tick < TICK_COUNT_MAX ∧
    (tickA ⟨7, 4, 0, 4⟩).1.tick = (7 + 1) % TICK_COUNT_MAX ∧
    (tickB ⟨7, 5, 0, 4⟩).1.tick = 1 ∧
    (reportA ⟨7, 4, 0, 4⟩ [0, 0, 5, 0, 0, 0, 0, 0]).tick = 0 := by
  refine ⟨?_, ?_, ?_, ?_⟩
  · exact phase_counter_behaviour.2.2.1 ⟨49, 4, 0, 4⟩ (by decide)
  · exact phase_counter_behaviour.2.2.2.2.2.2.1 ⟨7, 4, 0, 4⟩ (by decide) (by decide)
  · exact phase_counter_behaviour.2.2.2.2.2.2.2.2.1 ⟨7, 5, 0, 4⟩ (by decide) (by decide)
  · exact phase_counter_behaviour.2.2.2.2.2.2.2.2.2.2.2.1 ⟨7, 4, 0, 4⟩ _ (by decide) (by decide)

/-- Counterexample to C8 as stated: in `keyboard_main.c` the report callback
itself writes the phase counter — a report changing the key resets
`tick_counter` from 3 to 0. -/
theorem callback_writes_phase_counter :
    ¬ ((reportA ⟨3, 4, 0, 4⟩ [0, 0, 5, 0, 0, 0, 0, 0]).tick = 3) := by
  decide

/-- C8 (amended): in the `part_000` variant the report operation never reads
or writes the phase counter (it preserves it and its result does not depend
on it) and the scheduler tick only rewrites the phase data, leaving the key
state unchanged in both variants; but in `keyboard_main.c` the report
callback does write the phase counter on a key change. -/
theorem frame_of_operations :
    (∀ (s : StB) (raw : List Nat), (reportB s raw).tick = s.tick ∧
      (reportB s raw).prev = s.prev) ∧
    (∀ (s : StB) (raw : List Nat) (t : Nat),
      (reportB { s with tick := t } raw).key = (reportB s raw).key ∧
      (reportB { s with tick := t } raw).mdf = (reportB s raw).mdf) ∧
    (∀ s : StA, (tickA s).1.key = s.key ∧ (tickA s).1.mdf = s.mdf ∧
      (tickA s).1.last = s.last) ∧
    (∀ s : StB, (tickB s).1.key = s.key ∧ (tickB s).1.mdf = s.mdf) := by
  refine ⟨?_, ?_, ?_, ?_⟩
  · intro s raw
    by_cases h : raw.length < 3 <;> simp [reportB, h]
  · intro s raw t
    by_cases h : raw.length < 3 <;> simp [reportB, h]
  · intro s
    by_cases h : s.key = 0 <;> simp [tickA, h]
  · intro s
    by_cases h : s.key = 0 <;> simp [tickB, h]

/-- C9: the key-state globals are written by the callback and read by the
scheduler as two separate accesses; in the interleaving where the scheduler's
two reads straddle a second report's two writes, it observes the held key of
the first report (0x04) together with the modifiers of the second (0x02) — a
torn combination matching neither report. -/
theorem torn_read_possible :
    (runM (⟨0, 0⟩, ⟨none, none⟩)
        [MAct.wrMod 0, MAct.wrKey 4, MAct.rdKey, MAct.wrMod 2, MAct.wrKey 5,
          MAct.rdMod]).2 = ⟨some 4, some 2⟩ ∧
    ¬ ((4, 2) = ((4 : Nat), (0 : Nat))) ∧ ¬ ((4, 2) = ((5 : Nat), (2 : Nat))) := by
  decide

set_option maxRecDepth 40000 in
/-- C1: on a scheduler tick a byte is transmitted exactly when the held key
is nonzero, the phase counter read by the emission check is 0, and the
translator yields a nonzero byte — and the transmitted byte is exactly the
translated one (for `part_000` the check reads the counter after its lazy
key-change reset, `effTick`); when the translator yields 0, nothing is
transmitted but the counter still advances; and in the scenario of one
report holding keycode 0x04 with no modifiers followed by 200 ticks
(2000 ms at 10 ms), both variants emit 97 (a) exactly at ticks 0, 50, 100,
150 (elapsed 0, 500, 1000, 1500 ms). -/
theorem emission_rule :
    (∀ (s : StA) (c : Nat), (tickA s).2 = some c ↔
      (s.key ≠ 0 ∧ s.tick = 0 ∧ usb_keycode_to_ascii s.key s.mdf = c ∧
        usb_keycode_to_ascii s.key s.mdf ≠ 0)) ∧
    (∀ (s : StB) (c : Nat), (tickB s).2 = some c ↔
      (s.key ≠ 0 ∧ effTick s = 0 ∧ usb_keycode_to_ascii s.key s.mdf = c ∧
        usb_keycode_to_ascii s.key s.mdf ≠ 0)) ∧
    (∀ s : StA, s.key ≠ 0 → usb_keycode_to_ascii s.key s.mdf = 0 →
      (tickA s).2 = none ∧
      (tickA s).1.tick = (if TICK_COUNT_MAX ≤ s.tick + 1 then 0 else s.tick + 1)) ∧
    (∀ s : StB, s.key ≠ 0 → usb_keycode_to_ascii s.key s.mdf = 0 →
      (tickB s).2 = none ∧
      (tickB s).1.tick = (if TICK_COUNT_MAX ≤ effTick s + 1 then 0 else effTick s + 1)) ∧
    runA initA c1Events = c1Expected ∧ runB initB c1Events = c1Expected := by
  refine ⟨?_, ?_, ?_, ?_, ?_, ?_⟩
  · intro s c
    by_cases h0 : s.key = 0
    · simp [tickA, h0]
    · by_cases ht : s.tick = 0
      · simp [tickA, h0, ht, sendByte_eq_some]
      · simp [tickA, h0, ht]
  · intro s c
    by_cases h0 : s.key = 0
    · simp [tickB, h0]
    · by_cases ht : effTick s = 0
      · simp [tickB, h0, ht, sendByte_eq_some]
      · simp [tickB, h0, ht]
  · intro s h0 hz
    simp [tickA, h0, sendByte_eq_none.mpr hz]
  · intro s h0 hz
    simp [tickB, h0, sendByte_eq_none.mpr hz]
  · decide
  · decide

/-- Witness for C1: with keycode 0x04 held and counter 0 the byte 97 is
emitted; with the in-range but translator-rejected state (keycode 0x39 is
out of range, translator yields 0) nothing is emitted. -/
theorem emission_rule_witness :
    (tickA ⟨0, 4, 0, 0⟩).2 = some 97 ∧ (tickA ⟨0, 57, 0, 0⟩).2 = none := by
  constructor
  · exact (emission_rule.1 ⟨0, 4, 0, 0⟩ 97).mpr (by decide)
  · exact (emission_rule.2.2.1 ⟨0, 57, 0, 0⟩ (by decide) (by decide)).1

set_option maxRecDepth 40000 in
/-- C2: a report changing the held key resets the phase so that the new
key's byte goes out on the very next scheduler tick: in `keyboard_main.c`
the callback itself zeroes the counter, and in `part_000` the next tick's
lazy reset fires; in the concrete scenario (0x04 at t = 0, a report
changing the key to 0x05 just before tick 20 at t = 200 ms), both variants
emit 98 (b) at tick 20 instead of waiting for t = 500 ms. -/
theorem phase_reset_on_key_change :
    (∀ (s : StA) (raw : List Nat), 3 ≤ raw.length → raw.getD 2 0 ≠ s.last →
      (reportA s raw).tick = 0) ∧
    (∀ (s : StA) (raw : List Nat), 3 ≤ raw.length → raw.getD 2 0 ≠ s.last →
      raw.getD 2 0 ≠ 0 →
      (tickA (reportA s raw)).2 = sendByte (raw.getD 2 0) (raw.getD 0 0)) ∧
    (∀ (s : StB) (raw : List Nat), 3 ≤ raw.length → raw.getD 2 0 ≠ s.prev →
      raw.getD 2 0 ≠ 0 →
      (tickB (reportB s raw)).2 = sendByte (raw.getD 2 0) (raw.getD 0 0)) ∧
    runA initA c2Events = c2Expected ∧ runB initB c2Events = c2Expected := by
  refine ⟨?_, ?_, ?_, ?_, ?_⟩
  · intro s raw hlen hne
    simp only [reportA, if_neg (Nat.not_lt.mpr hlen)]
    exact if_pos (Ne.symm hne)
  · intro s raw hlen hne hk
    have hr : reportA s raw =
        { tick := 0, key := raw.getD 2 0, mdf := raw.getD 0 0, last := raw.getD 2 0 } := by
      simp only [reportA, if_neg (Nat.not_lt.mpr hlen)]
      rw [if_pos (Ne.symm hne)]
    rw [hr]
    exact tickA_fire _ hk rfl
  · intro s raw hlen hne hk
    have hr : reportB s raw = { s with key := raw.getD 2 0, mdf := raw.getD 0 0 } := by
      simp only [reportB, if_neg (Nat.not_lt.mpr hlen)]
    have he : effTick { s with key := raw.getD 2 0, mdf := raw.getD 0 0 } = 0 := by
      show (if raw.getD 2 0 ≠ s.prev then 0 else s.tick) = 0
      exact if_pos hne
    rw [hr]
    exact tickB_fire _ hk he
  · decide
  · decide

/-- Witness for C2: from a mid-interval state (counter 37, key 0x04), a
report switching to key 0x05 makes the very next tick emit 98 (b). -/
theorem phase_reset_on_key_change_witness :
    (reportA ⟨37, 4, 0, 4⟩ [0, 0, 5, 0, 0, 0, 0, 0]).tick = 0 ∧
    (tickA (reportA ⟨37, 4, 0, 4⟩ [0, 0, 5, 0, 0, 0, 0, 0])).2 = some 98 ∧
    (tickB (reportB ⟨37, 4, 0, 4⟩ [0, 0, 5, 0, 0, 0, 0, 0])).2 = some 98 := by
  refine ⟨?_, ?_, ?_⟩
  · exact phase_reset_on_key_change.1 ⟨37, 4, 0, 4⟩ _ (by decide) (by decide)
  · have h := phase_reset_on_key_change.2.1 ⟨37, 4, 0, 4⟩ [0, 0, 5, 0, 0, 0, 0, 0]
      (by decide) (by decide) (by decide)
    simpa [sendByte] using h
  · have h := phase_reset_on_key_change.2.2.1 ⟨37, 4, 0, 4⟩ [0, 0, 5, 0, 0, 0, 0, 0]
      (by decide) (by decide) (by decide)
    simpa [sendByte] using h

/-- A scheduler tick preserves the simulation relation (clearing any pending
key change) and produces the same output in both variants. -/
theorem simRel_tick {key : Nat} {changed : Bool} {a : StA} {b : StB}
    (h : SimRel key changed a b) :
    (tickA a).2 = (tickB b).2 ∧ SimRel key false (tickA a).1 (tickB b).1 := by
  obtain ⟨hk, hm, hl, hp, hz, he, _⟩ := h
  by_cases h0 : a.key = 0
  · have hb0 : b.key = 0 := hk ▸ h0
    have ht0 : a.tick = 0 := hz h0
    have hA : tickA a = (a, none) := by simp [tickA, h0]
    have hB : tickB b = ({ b with tick := 0, prev := b.key }, none) := by
      simp [tickB, hb0]
    rw [hA, hB]
    refine ⟨rfl, hk, hm, hl, hp, hz, ?_, ?_⟩
    · show (if b.key ≠ b.key then 0 else 0) = a.tick
      simp [ht0]
    · intro _
      show b.key = a.key
      exact hk.symm
  · have hb0 : b.key ≠ 0 := by rw [← hk]; exact h0
    have hA : tickA a =
        ({ a with tick := if TICK_COUNT_MAX ≤ a.tick + 1 then 0 else a.tick + 1 },
          if a.tick = 0 then sendByte a.key a.mdf else none) := by
      simp [tickA, h0]
    have hB : tickB b =
        ({ b with
            tick := (if TICK_COUNT_MAX ≤ effTick b + 1 then 0 else effTick b + 1),
            prev := b.key },
          if effTick b = 0 then sendByte b.key b.mdf else none) := by
      simp [tickB, hb0]
    rw [hA, hB]
    refine ⟨by rw [he, hk, hm], hk, hm, hl, hp, ?_, ?_, ?_⟩
    · intro hcon
      exact absurd hcon h0
    · show (if b.key ≠ b.key then 0 else if TICK_COUNT_MAX ≤ effTick b + 1 then 0
        else effTick b + 1) = _
      rw [he]
      simp
    · intro _
      show b.key = a.key
      exact hk.symm

/-- A short report preserves the simulation relation unchanged. -/
theorem simRel_report_short {key : Nat} {changed : Bool} {a : StA} {b : StB}
    (h : SimRel key changed a b) {raw : List Nat} (hlen : raw.length < 3) :
    SimRel key changed (reportA a raw) (reportB b raw) := by
  have hA : reportA a raw = a := by simp [reportA, hlen]
  have hB : reportB b raw = b := by simp [reportB, hlen]
  rw [hA, hB]
  exact h

/-- A report carrying the currently held key preserves the simulation
relation. -/
theorem simRel_report_same {key : Nat} {changed : Bool} {a : StA} {b : StB}
    (h : SimRel key changed a b) {raw : List Nat} (hlen : ¬ raw.length < 3)
    (hkey : raw.getD 2 0 = key) :
    SimRel key changed (reportA a raw) (reportB b raw) := by
  obtain ⟨hk, hm, hl, hp, hz, he, hc⟩ := h
  have hak : a.last = raw.getD 2 0 := by rw [hkey, hl, hp]
  have hA : reportA a raw =
      { tick := a.tick, key := raw.getD 2 0, mdf := raw.getD 0 0,
        last := raw.getD 2 0 } := by
    simp only [reportA, if_neg hlen]
    rw [if_neg (by simp [hak])]
  have hB : reportB b raw = { b with key := raw.getD 2 0, mdf := raw.getD 0 0 } := by
    simp only [reportB, if_neg hlen]
  rw [hA, hB]
  refine ⟨rfl, rfl, rfl, hkey.symm, ?_, ?_, ?_⟩
  · intro hcon
    show a.tick = 0
    refine hz ?_
    rw [← hp, ← hkey]
    exact hcon
  · show (if raw.getD 2 0 ≠ b.prev then 0 else b.tick) = a.tick
    rw [← he]
    show _ = (if b.key ≠ b.prev then 0 else b.tick)
    rw [show raw.getD 2 0 = b.key by rw [hkey, hp, hk]]
  · intro hch
    show b.prev = raw.getD 2 0
    rw [hc hch, ← hp, hkey]

/-- A report changing the held key, with no change pending, re-establishes
the simulation relation for the new key with a pending change. -/
theorem simRel_report_new {key : Nat} {a : StA} {b : StB}
    (h : SimRel key false a b) {raw : List Nat} (hlen : ¬ raw.length < 3)
    (hkey : raw.getD 2 0 ≠ key) :
    SimRel (raw.getD 2 0) true (reportA a raw) (reportB b raw) := by
  obtain ⟨hk, hm, hl, hp, hz, he, hc⟩ := h
  have hak : a.last ≠ raw.getD 2 0 := by
    rw [hl, ← hp]
    exact fun hcon => hkey (hcon.symm)
  have hA : reportA a raw =
      { tick := 0, key := raw.getD 2 0, mdf := raw.getD 0 0,
        last := raw.getD 2 0 } := by
    simp only [reportA, if_neg hlen]
    rw [if_pos hak]
  have hB : reportB b raw = { b with key := raw.getD 2 0, mdf := raw.getD 0 0 } := by
    simp only [reportB, if_neg hlen]
  rw [hA, hB]
  have hbp : b.prev = key := by rw [hc rfl, ← hp]
  refine ⟨rfl, rfl, rfl, rfl, fun _ => rfl, ?_, ?_⟩
  · show (if raw.getD 2 0 ≠ b.prev then 0 else b.tick) = 0
    rw [hbp]
    exact if_pos hkey
  · intro hcon
    exact absurd hcon (by simp)

/-- Runs admissible per `okFrom` produce identical output traces from
related states. -/
theorem runAB (es : List Ev) : ∀ (key : Nat) (changed : Bool) (a : StA) (b : StB),
    SimRel key changed a b → okFrom key changed es = true → runA a es = runB b es := by
  induction es with
  | nil =>
    intro key changed a b _ _
    rfl
  | cons e es ih =>
    intro key changed a b h hok
    cases e with
    | tick =>
      have ht := simRel_tick h
      have hok' : okFrom key false es = true := hok
      show (tickA a).2 :: runA (tickA a).1 es = (tickB b).2 :: runB (tickB b).1 es
      rw [ht.1, ih key false _ _ ht.2 hok']
    | report raw =>
      show runA (reportA a raw) es = runB (reportB b raw) es
      by_cases hlen : raw.length < 3
      · have hok' : okFrom key changed es = true := by
          have heq : okFrom key changed (Ev.report raw :: es) = okFrom key changed es := by
            simp only [okFrom]
            rw [if_pos hlen]
          rw [← heq]
          exact hok
        exact ih key changed _ _ (simRel_report_short h hlen) hok'
      · by_cases hkey : raw.getD 2 0 = key
        · have hok' : okFrom key changed es = true := by
            have heq : okFrom key changed (Ev.report raw :: es) = okFrom key changed es := by
              simp only [okFrom]
              rw [if_neg hlen, if_pos hkey]
            rw [← heq]
            exact hok
          exact ih key changed _ _ (simRel_report_same h hlen hkey) hok'
        · cases changed with
          | true =>
            exfalso
            have heq : okFrom key true (Ev.report raw :: es) = false := by
              simp only [okFrom]
              rw [if_neg hlen, if_neg hkey, if_pos trivial]
            rw [heq] at hok
            exact Bool.false_ne_true hok
          | false =>
            have hok' : okFrom (raw.getD 2 0) true es = true := by
              have heq : okFrom key false (Ev.report raw :: es) =
                  okFrom (raw.getD 2 0) true es := by
                simp only [okFrom]
                rw [if_neg hlen, if_neg hkey, if_neg (by simp)]
              rw [← heq]
              exact hok
            exact ih (raw.getD 2 0) true _ _ (simRel_report_new h hlen hkey) hok'

/-- C10: the two variants transmit identical byte sequences at identical
ticks on every run in which reports are applied atomically between ticks and
the held key changes at most once between consecutive scheduler ticks. -/
theorem variants_equiv (es : List Ev) (h : okRun es = true) :
    runA initA es = runB initB es :=
  runAB es 0 false initA initB
    ⟨rfl, rfl, rfl, rfl, fun _ => rfl, rfl, fun _ => rfl⟩ h

/-- Witness for C10: a concrete admissible run (press 0x04, two ticks, switch
to 0x05, two ticks, release, one tick) on which both variants agree. -/
theorem variants_equiv_witness :
    okRun [Ev.report [0, 0, 4, 0, 0, 0, 0, 0], Ev.tick, Ev.tick,
      Ev.report [0, 0, 5, 0, 0, 0, 0, 0], Ev.tick, Ev.tick,
      Ev.report [0, 0, 0, 0, 0, 0, 0, 0], Ev.tick] = true ∧
    runA initA [Ev.report [0, 0, 4, 0, 0, 0, 0, 0], Ev.tick, Ev.tick,
      Ev.report [0, 0, 5, 0, 0, 0, 0, 0], Ev.tick, Ev.tick,
      Ev.report [0, 0, 0, 0, 0, 0, 0, 0], Ev.tick] =
    runB initB [Ev.report [0, 0, 4, 0, 0, 0, 0, 0], Ev.tick, Ev.tick,
      Ev.report [0, 0, 5, 0, 0, 0, 0, 0], Ev.tick, Ev.tick,
      Ev.report [0, 0, 0, 0, 0, 0, 0, 0], Ev.tick] :=
  ⟨by decide, variants_equiv _ (by decide)⟩

end UsbKbd
